import Mathlib

/-!
Verification development for the `ninesl/scryfall` command-line utility.

The Go sources under verification are `client.go` (fetch / filter /
upsert / reload logic) and `types.go` (the wire model and its custom
JSON unmarshalling).  Pure Go functions are embedded as Lean functions;
the stateful fetch-and-load pass is embedded as explicit state passing
over an association-list model of the two SQLite tables; calls into the
Go standard library (`encoding/json`, `net/url`) are either modelled
explicitly (with a doc comment saying so) or taken as parameters of the
embedding, so that the theorems quantify over every possible behaviour
of the external collaborator.
-/

namespace Scryfall

/-- URL models Go's `url.URL` as carried by the wire model.  Only the raw
text of a reference matters to any property proved here, so the parsed
components (scheme, host, path, ...) are not represented. -/
structure URL where
  raw : String
deriving Inhabited, DecidableEq

/-- CardPreview mirrors the Go struct `CardPreview` of types.go: preview
date, source link and source name, all optional. -/
structure CardPreview where
  PreviewedAt : Option String
  SourceURI : Option URL
  Source : Option String
deriving Inhabited, DecidableEq

/-- RelatedCard mirrors the Go struct `RelatedCard` of types.go. -/
structure RelatedCard where
  ID : String
  Object : String
  Component : String
  Name : String
  TypeLine : String
  URI : URL
deriving Inhabited, DecidableEq

/-- CardFace mirrors the Go struct `CardFace` of types.go.  The numeric
`cmc` field is modelled over `Int` (its fractional part plays no role in
any claim). -/
structure CardFace where
  Artist : Option String
  ArtistID : Option String
  CMC : Option Int
  ColorIndicator : List String
  Colors : List String
  Defense : Option String
  FlavorText : Option String
  IllustrationID : Option String
  ImageURIs : List (String × String)
  Layout : Option String
  Loyalty : Option String
  ManaCost : String
  Name : String
  Object : String
  OracleID : Option String
  OracleText : Option String
  Power : Option String
  PrintedName : Option String
  PrintedText : Option String
  PrintedTypeLine : Option String
  Toughness : Option String
  TypeLine : Option String
  Watermark : Option String
deriving Inhabited, DecidableEq

/-- Card mirrors the Go struct `Card` of types.go, field for field.
Go pointer fields become `Option`, slices become `List`, string-keyed
maps become association lists, and the float64 field `CMC` is modelled
over `Int` (no claim depends on its value).  Go draws a distinction
between a nil slice/map and an empty one; the two are conflated here,
which is observation-equivalent for every embedded operation (each one
branches on emptiness before marshalling). -/
structure Card where
  ArenaID : Option Int
  ID : String
  Lang : String
  MTGOID : Option Int
  MTGOFoilID : Option Int
  MultiverseIDs : List Int
  TCGPlayerID : Option Int
  TCGPlayerEtchedID : Option Int
  CardmarketID : Option Int
  Object : String
  Layout : String
  OracleID : Option String
  PrintsSearchURI : URL
  RulingsURI : URL
  ScryfallURI : URL
  URI : URL
  AllParts : List RelatedCard
  CardFaces : List CardFace
  CMC : Int
  ColorIdentity : List String
  ColorIndicator : List String
  Colors : List String
  Defense : Option String
  EDHRecRank : Option Int
  GameChanger : Option Bool
  HandModifier : Option String
  Keywords : List String
  Legalities : List (String × String)
  LifeModifier : Option String
  Loyalty : Option String
  ManaCost : Option String
  Name : String
  OracleText : Option String
  PennyRank : Option Int
  Power : Option String
  ProducedMana : List String
  Reserved : Bool
  Toughness : Option String
  TypeLine : String
  Artist : Option String
  ArtistIDs : List String
  AttractionLights : List Int
  Booster : Bool
  BorderColor : String
  CardBackID : String
  CollectorNumber : String
  ContentWarning : Option Bool
  Digital : Bool
  Finishes : List String
  FlavorName : Option String
  FlavorText : Option String
  FrameEffects : List String
  Frame : String
  FullArt : Bool
  Games : List String
  HighresImage : Bool
  IllustrationID : Option String
  ImageStatus : String
  ImageURIs : List (String × String)
  Oversized : Bool
  Prices : List (String × Option String)
  PrintedName : Option String
  PrintedText : Option String
  PrintedTypeLine : Option String
  Promo : Bool
  PromoTypes : List String
  PurchaseURIs : List (String × String)
  Rarity : String
  RelatedURIs : List (String × String)
  ReleasedAt : String
  Reprint : Bool
  ScryfallSetURI : URL
  SetName : String
  SetSearchURI : URL
  SetType : String
  SetURI : URL
  Set : String
  SetID : String
  StorySpotlight : Bool
  Textless : Bool
  Variation : Bool
  VariationOf : Option String
  SecurityStamp : Option String
  Watermark : Option String
  Preview : Option CardPreview
deriving Inhabited, DecidableEq

/-- NullString mirrors Go's `sql.NullString`: a string column value that
is NULL when `valid` is false. -/
structure NullString where
  string : String
  valid : Bool
deriving Inhabited, DecidableEq

/-- GoValue models the Go `interface\x7b\x7d` values actually passed to the
serialization helpers `toJSONString` / `toJSONStringDirect` in client.go.
`goNil` is the untyped nil interface; `ptrPreview none` is a typed nil
`*CardPreview` pointer boxed in a non-nil interface (the two are distinct
in Go, which claim C10 hinges on).  Go's nil slice and empty slice are
conflated (both helpers branch on length before marshalling, so the two
are indistinguishable to them).  Call sites whose static type is none of
these cases (for example `[]RelatedCard`) are not modelled, since no
claim mentions them. -/
inductive GoValue where
  | goNil
  | strList (l : List String)
  | intList (l : List Int)
  | strMap (m : List (String × String))
  | strPtrMap (m : List (String × Option String))
  | ptrPreview (p : Option CardPreview)
deriving Inhabited, DecidableEq

/-- isNilInterface models Go's `v == nil` test on an interface value: it
is true only for the untyped nil interface, never for a typed nil
pointer boxed in an interface. -/
def isNilInterface : GoValue → Bool
  | .goNil => true
  | _ => false

/-- jsonEscapeChar escapes one character the way `encoding/json` renders
it inside a JSON string.  Modelled from the Go standard library for the
characters that can appear in the concrete inputs of this development;
HTML-escaping of `<`, `>`, `&` and the control-character escapes are not
reproduced (no claim exercises them). -/
def jsonEscapeChar (c : Char) : String :=
  if c = '"' then "\\\""
  else if c = '\\' then "\\\\"
  else String.singleton c

/-- jsonQuote renders a Go string as a JSON string literal. -/
def jsonQuote (s : String) : String :=
  "\"" ++ (s.toList.map jsonEscapeChar).foldl (fun acc t => acc ++ t) "" ++ "\""

/-- jsonJoin joins rendered elements with a separator, like
`strings.Join`. -/
def jsonJoin (sep : String) : List String → String
  | [] => ""
  | x :: xs => xs.foldl (fun acc y => acc ++ sep ++ y) x

/-- insertSortedByKey inserts one key-value pair into a key-sorted list,
used to model `encoding/json` sorting map keys when marshalling. -/
def insertSortedByKey {α : Type} (kv : String × α) :
    List (String × α) → List (String × α)
  | [] => [kv]
  | x :: xs =>
    if kv.1 ≤ x.1 then kv :: x :: xs else x :: insertSortedByKey kv xs

/-- sortByKey sorts an association list by key, as `encoding/json` does
with Go maps before marshalling. -/
def sortByKey {α : Type} (l : List (String × α)) : List (String × α) :=
  l.foldr insertSortedByKey []

/-- marshalPreview renders a `CardPreview` struct the way `json.Marshal`
renders it (fields in declaration order under their json tags, nil
pointers as null).  A non-nil `source_uri` is rendered from the raw URL
text; the stdlib would render the `url.URL` struct's components instead,
but no claim or witness marshals a non-nil preview. -/
def marshalPreview (p : CardPreview) : String :=
  "\x7b\"previewed_at\":" ++
    (match p.PreviewedAt with
     | none => "null"
     | some s => jsonQuote s) ++
  ",\"source_uri\":" ++
    (match p.SourceURI with
     | none => "null"
     | some u => jsonQuote u.raw) ++
  ",\"source\":" ++
    (match p.Source with
     | none => "null"
     | some s => jsonQuote s) ++ "\x7d"

/-- jsonMarshal models `json.Marshal` on the modelled interface values.
It never fails on these types (the `Except` shape is kept because the
source checks the error return); an untyped nil and a typed nil pointer
both render as the four characters `null`. -/
def jsonMarshal : GoValue → Except Unit String
  | .goNil => .ok "null"
  | .strList l => .ok ("[" ++ jsonJoin "," (l.map jsonQuote) ++ "]")
  | .intList l => .ok ("[" ++ jsonJoin "," (l.map (fun n => toString n)) ++ "]")
  | .strMap m =>
    .ok ("\x7b" ++
      jsonJoin "," ((sortByKey m).map (fun kv => jsonQuote kv.1 ++ ":" ++ jsonQuote kv.2)) ++
      "\x7d")
  | .strPtrMap m =>
    .ok ("\x7b" ++
      jsonJoin "," ((sortByKey m).map (fun kv =>
        jsonQuote kv.1 ++ ":" ++
          (match kv.2 with
           | none => "null"
           | some s => jsonQuote s))) ++
      "\x7d")
  | .ptrPreview none => .ok "null"
  | .ptrPreview (some p) => .ok (marshalPreview p)

/-- isEmptyCompoundCase reports whether the value falls into one of the
four `case` arms of the type switch in `toJSONString` and
`toJSONStringDirect` with an empty (length zero) payload. -/
def isEmptyCompoundCase : GoValue → Bool
  | .strList l => l.isEmpty
  | .intList l => l.isEmpty
  | .strMap m => m.isEmpty
  | .strPtrMap m => m.isEmpty
  | _ => false

/-- toJSONString converts a value to a nullable JSON text column value
(client.go, `toJSONString`): NULL for a nil interface, NULL for an empty
slice or map of the switched types, NULL if marshalling fails, otherwise
the marshalled text. -/
def toJSONString (v : GoValue) : NullString :=
  if isNilInterface v then { string := "", valid := false }
  else if isEmptyCompoundCase v then { string := "", valid := false }
  else
    match jsonMarshal v with
    | .error _ => { string := "", valid := false }
    | .ok s => { string := s, valid := true }

/-- emptyContainerMarker gives the explicit marker the type switch of
`toJSONStringDirect` returns for an empty slice ("[]") or empty map
("\x7b\x7d"), and none when the switch falls through. -/
def emptyContainerMarker : GoValue → Option String
  | .strList l => if l.isEmpty then some "[]" else none
  | .intList l => if l.isEmpty then some "[]" else none
  | .strMap m => if m.isEmpty then some "\x7b\x7d" else none
  | .strPtrMap m => if m.isEmpty then some "\x7b\x7d" else none
  | _ => none

/-- toJSONStringDirect converts a value to a JSON text directly
(client.go, `toJSONStringDirect`): "[]" for a nil interface, the explicit
empty-container marker for an empty slice or map, "[]" if marshalling
fails, otherwise the marshalled text. -/
def toJSONStringDirect (v : GoValue) : String :=
  if isNilInterface v then "[]"
  else
    match emptyContainerMarker v with
    | some marker => marker
    | none =>
      match jsonMarshal v with
      | .error _ => "[]"
      | .ok s => s

/-- parseStringLit consumes the body of a JSON string literal after its
opening quote, returning the decoded text and the rest of the input.
Modelled from `encoding/json` for the backslash escapes of `"` and `\`
(the only ones our serializer emits). -/
def parseStringLit : List Char → Option (String × List Char)
  | [] => none
  | '"' :: rest => some ("", rest)
  | '\\' :: c :: rest =>
    match parseStringLit rest with
    | none => none
    | some (s, r) => some (String.singleton c ++ s, r)
  | c :: rest =>
    match parseStringLit rest with
    | none => none
    | some (s, r) => some (String.singleton c ++ s, r)

/-- parseArrayBody parses the elements of a JSON array of strings after
the opening bracket; `fuel` bounds the recursion by the input length. -/
def parseArrayBody : Nat → List String → List Char → Except String (List String)
  | fuel, acc, cs =>
    match fuel, cs with
    | _, ']' :: rest => if rest.isEmpty then .ok acc.reverse else .error "trailing input"
    | 0, _ => .error "out of fuel"
    | fuel' + 1, '"' :: rest =>
      match parseStringLit rest with
      | none => .error "unterminated string"
      | some (s, r) =>
        match r with
        | ',' :: r2 =>
          match r2 with
          | '"' :: r3 =>
            match parseStringLit r3 with
            | none => .error "unterminated string"
            | some (s2, r4) => parseArrayBody fuel' (s2 :: s :: acc) r4
          | _ => .error "expected string element"
        | ']' :: r2 => if r2.isEmpty then .ok (acc.reverse ++ [s]) else .error "trailing input"
        | _ => .error "expected comma or close bracket"
    | _, _ => .error "expected string element or close bracket"

/-- parseJSONStringArray models `json.Unmarshal` of a text column into a
`[]string` target, restricted to the texts this system's serializer can
produce (no surrounding whitespace, string elements only). -/
def parseJSONStringArray (s : String) : Except String (List String) :=
  match s.toList with
  | '[' :: rest => parseArrayBody (rest.length + 1) [] rest
  | _ => .error "cannot unmarshal into string slice"

/-- containsFinish checks if a finish type exists in the finishes array
(client.go, `containsFinish`): a linear scan with early return on exact
string equality. -/
def containsFinish (finishes : List String) (finish : String) : Bool :=
  finishes.any (fun f => f == finish)

/-- isArenaSet reports whether the string "arena" occurs in a games list
(client.go, `isArenaSet`). -/
def isArenaSet (games : List String) : Bool :=
  games.any (fun game => game == "arena")

/-- shouldIncludeCard rejects a card when any of its printings is on
Arena at common or uncommon rarity (client.go, `shouldIncludeCard`). -/
def shouldIncludeCard (printings : List Card) : Bool :=
  !(printings.any (fun printing =>
    isArenaSet printing.Games &&
      (printing.Rarity == "common" || printing.Rarity == "uncommon")))

/-- lookupA finds the value stored under a key in an association list
(first match wins), modelling a primary-key lookup. -/
def lookupA {α : Type} : String → List (String × α) → Option α
  | _, [] => none
  | k, kv :: m => if kv.1 == k then some kv.2 else lookupA k m

/-- updateA overwrites every entry carrying the given key with the new
value, leaving other entries alone. -/
def updateA {α : Type} (k : String) (v : α) (m : List (String × α)) :
    List (String × α) :=
  m.map (fun kv => if kv.1 == k then (k, v) else kv)

/-- upsertA models SQL upsert-by-primary-key on an association-list
table: overwrite the row if the key exists, append a fresh row
otherwise. -/
def upsertA {α : Type} (k : String) (v : α) (m : List (String × α)) :
    List (String × α) :=
  match lookupA k m with
  | some _ => updateA k v m
  | none => m ++ [(k, v)]

/-- UpsertCardParams models the claim-relevant columns of the sqlc
parameter struct built at client.go lines 314-342.  The remaining
columns are verbatim field copies through the same helpers and are
omitted. -/
structure UpsertCardParams where
  oracle_id : String
  name : String
  type_line : String
  color_identity : String
  colors : NullString
deriving Inhabited, DecidableEq

/-- UpsertPrintingParams models the claim-relevant columns of the sqlc
parameter struct built at client.go lines 351-413.  The remaining
columns are verbatim field copies through the same helpers and are
omitted. -/
structure UpsertPrintingParams where
  id : String
  oracle_id : String
  artist_ids : NullString
  finishes : String
  foil : Bool
  nonfoil : Bool
  games : String
  rarity : String
  preview : NullString
deriving Inhabited, DecidableEq

/-- mkUpsertCardParams builds the modelled card columns exactly as the
call at client.go lines 314-342 does, with `oid` standing for the value
of the dereference `*card.OracleID`. -/
def mkUpsertCardParams (card : Card) (oid : String) : UpsertCardParams :=
  { oracle_id := oid
    name := card.Name
    type_line := card.TypeLine
    color_identity := toJSONStringDirect (GoValue.strList card.ColorIdentity)
    colors := toJSONString (GoValue.strList card.Colors) }

/-- mkUpsertPrintingParams builds the modelled printing columns exactly
as the call at client.go lines 351-413 does, with `oid` standing for the
value of the dereference `*printing.OracleID`. -/
def mkUpsertPrintingParams (printing : Card) (oid : String) :
    UpsertPrintingParams :=
  { id := printing.ID
    oracle_id := oid
    artist_ids := toJSONString (GoValue.strList printing.ArtistIDs)
    finishes := toJSONStringDirect (GoValue.strList printing.Finishes)
    foil := containsFinish printing.Finishes "foil"
    nonfoil := containsFinish printing.Finishes "nonfoil"
    games := toJSONStringDirect (GoValue.strList printing.Games)
    rarity := printing.Rarity
    preview := toJSONString (GoValue.ptrPreview printing.Preview) }

/-- Store models the two SQLite tables as association lists keyed by
their primary keys (`cards` by oracle_id, `printings` by id). -/
structure Store where
  cards : List (String × UpsertCardParams)
  printings : List (String × UpsertPrintingParams)
deriving Inhabited, DecidableEq

/-- emptyStore is the freshly created database. -/
def emptyStore : Store := { cards := [], printings := [] }

/-- Attempt records one upsert statement issued against the store, in
issue order. -/
inductive Attempt where
  | cardUpsert (oracleId : String)
  | printingUpsert (id : String)
deriving Inhabited, DecidableEq

/-- GoPanic marks a Go runtime panic; the only one this embedding can
raise is the nil-pointer dereference of a missing oracle_id. -/
inductive GoPanic where
  | nilPointerDereference
deriving Inhabited, DecidableEq

/-- processPrintings embeds the inner loop of `queryAndInsertCards`
(client.go lines 350-422): for each printing, the parameter struct is
built (dereferencing `*printing.OracleID`, a panic when nil), the upsert
is attempted, and a failing upsert (modelled by the `printingFails`
predicate) is logged and skipped without touching the store. -/
def processPrintings (printingFails : Card → Bool) (st : Store)
    (log : List Attempt) : List Card → Except GoPanic (Store × List Attempt)
  | [] => .ok (st, log)
  | p :: rest =>
    match p.OracleID with
    | none => .error GoPanic.nilPointerDereference
    | some oid =>
      if printingFails p then
        processPrintings printingFails st (log ++ [Attempt.printingUpsert p.ID]) rest
      else
        processPrintings printingFails
          { st with printings := upsertA p.ID (mkUpsertPrintingParams p oid) st.printings }
          (log ++ [Attempt.printingUpsert p.ID]) rest

/-- processCard embeds one iteration of the outer loop of
`queryAndInsertCards` (client.go lines 298-423): a failed printings
fetch is logged and skipped; a card rejected by `shouldIncludeCard` is
skipped; otherwise the card parameter struct is built (dereferencing
`*card.OracleID`, a panic when nil) and upserted, a failing card upsert
(modelled by the `cardFails` predicate) skipping that card's printings,
and finally every printing is processed. -/
def processCard (cardFails printingFails : Card → Bool) (st : Store)
    (log : List Attempt) (card : Card)
    (printingsResult : Except Unit (List Card)) :
    Except GoPanic (Store × List Attempt) :=
  match printingsResult with
  | .error _ => .ok (st, log)
  | .ok printings =>
    if !shouldIncludeCard printings then .ok (st, log)
    else
      match card.OracleID with
      | none => .error GoPanic.nilPointerDereference
      | some oid =>
        if cardFails card then .ok (st, log ++ [Attempt.cardUpsert oid])
        else
          processPrintings printingFails
            { st with cards := upsertA oid (mkUpsertCardParams card oid) st.cards }
            (log ++ [Attempt.cardUpsert oid]) printings

/-- queryAndInsertCards embeds the whole fetch-and-load pass of
client.go over its inputs: the search results paired with the outcome of
each per-card printings fetch.  Database failures are injected through
the two predicates; the result is the final store and the ordered list
of upsert statements issued. -/
def queryAndInsertCards (cardFails printingFails : Card → Bool) (st : Store)
    (log : List Attempt) :
    List (Card × Except Unit (List Card)) → Except GoPanic (Store × List Attempt)
  | [] => .ok (st, log)
  | (card, printingsResult) :: rest =>
    match processCard cardFails printingFails st log card printingsResult with
    | .error e => .error e
    | .ok (st', log') => queryAndInsertCards cardFails printingFails st' log' rest

/-- DBRow models one row of the `GetCardsWithPrintings` join consumed by
`loadCardsFromDatabase`, restricted to the columns the games-union logic
reads.  `games` is the row's games column after the stdlib
`json.Unmarshal` call; every row written by this system stores a JSON
array there (`toJSONStringDirect` output, never the empty string), so
the `row.Games != ""` guard in the source is always taken and is not
represented separately. -/
structure DBRow where
  oracle_id : String
  games : List String
deriving Inhabited, DecidableEq

/-- addGame inserts a game name into the accumulated list unless already
present, modelling one `gameSet[game] = true` map insertion followed by
the final map-to-slice conversion.  Go iterates the map in unspecified
order; first-insertion order is the representative chosen here, which is
sound because every property proved of the result is order-irrelevant. -/
def addGame (acc : List String) (g : String) : List String :=
  if g ∈ acc then acc else acc ++ [g]

/-- mergeGames embeds the duplicate-collapsing merge at client.go lines
450-464: the existing card's games and the new printing's games are
poured into one set and read back out. -/
def mergeGames (existing newGames : List String) : List String :=
  (existing ++ newGames).foldl addGame []

/-- loadCardGamesStep embeds one iteration of the grouping loop of
`loadCardsFromDatabase` (client.go lines 442-498), restricted to the
games field: a row for an already-seen oracle_id merges its games into
the existing card, a first row creates the card with its games list
taken verbatim from the parsed column. -/
def loadCardGamesStep (m : List (String × List String)) (row : DBRow) :
    List (String × List String) :=
  match lookupA row.oracle_id m with
  | some existing => updateA row.oracle_id (mergeGames existing row.games) m
  | none => m ++ [(row.oracle_id, row.games)]

/-- loadCardGames embeds the read-path reconstruction of each card's
games field from the stored printing rows, keyed by oracle_id. -/
def loadCardGames (rows : List DBRow) : List (String × List String) :=
  rows.foldl loadCardGamesStep []

theorem containsFinish_iff (finishes : List String) (finish : String) :
    containsFinish finishes finish = true ↔ finish ∈ finishes := by
  simp [containsFinish, List.any_eq_true]

theorem isArenaSet_iff (games : List String) :
    isArenaSet games = true ↔ "arena" ∈ games := by
  simp [isArenaSet, List.any_eq_true]

theorem shouldIncludeCard_false_iff (printings : List Card) :
    shouldIncludeCard printings = false ↔
      ∃ p ∈ printings,
        "arena" ∈ p.Games ∧ (p.Rarity = "common" ∨ p.Rarity = "uncommon") := by
  simp [shouldIncludeCard, List.any_eq_true, isArenaSet_iff]

/-- C1: `shouldIncludeCard` returns false if and only if some printing in
the list both lists "arena" in its games and has rarity exactly "common"
or exactly "uncommon"; it returns true on the empty list; and, being a
pure function whose value only depends on which printings occur in the
list, its result is invariant under any permutation of the list. -/
theorem shouldIncludeCard_iff_spec :
    (∀ printings : List Card,
      shouldIncludeCard printings = false ↔
        ∃ p ∈ printings,
          "arena" ∈ p.Games ∧ (p.Rarity = "common" ∨ p.Rarity = "uncommon")) ∧
    shouldIncludeCard [] = true ∧
    (∀ l l' : List Card, l.Perm l' →
      shouldIncludeCard l = shouldIncludeCard l') := by
  refine ⟨shouldIncludeCard_false_iff, rfl, ?_⟩
  intro l l' hperm
  cases hl : shouldIncludeCard l <;> cases hl' : shouldIncludeCard l' <;> try rfl
  · obtain ⟨p, hp, hcond⟩ := (shouldIncludeCard_false_iff l).mp hl
    have : shouldIncludeCard l' = false :=
      (shouldIncludeCard_false_iff l').mpr ⟨p, hperm.mem_iff.mp hp, hcond⟩
    rw [this] at hl'
    exact absurd hl' (by simp)
  · obtain ⟨p, hp, hcond⟩ := (shouldIncludeCard_false_iff l').mp hl'
    have : shouldIncludeCard l = false :=
      (shouldIncludeCard_false_iff l).mpr ⟨p, hperm.mem_iff.mpr hp, hcond⟩
    rw [this] at hl
    exact absurd hl (by simp)

/-- Sample printing that is available on Arena at common rarity. -/
def arenaCommonPrinting : Card :=
  { (default : Card) with
      ID := "p-arena-common", Games := ["arena"], Rarity := "common" }

/-- Witness for C1: the filter rejects a singleton Arena common printing,
accepts the empty list, and is unchanged under swapping two printings. -/
theorem shouldIncludeCard_iff_spec_witness :
    shouldIncludeCard [arenaCommonPrinting] = false ∧
    shouldIncludeCard [] = true ∧
    shouldIncludeCard [arenaCommonPrinting, (default : Card)] =
      shouldIncludeCard [(default : Card), arenaCommonPrinting] := by
  refine ⟨?_, shouldIncludeCard_iff_spec.2.1, ?_⟩
  · exact (shouldIncludeCard_iff_spec.1 [arenaCommonPrinting]).mpr
      ⟨arenaCommonPrinting, by simp, by decide, Or.inl (by decide)⟩
  · exact shouldIncludeCard_iff_spec.2.2 _ _ (List.Perm.swap _ _ _)

/-- C2 counterexample: `toJSONString`, the serializer used for the
nullable compound columns (colors, artist_ids, multiverse_ids, ...),
maps the empty string list to an absent/NULL column value rather than to
an explicit empty-container marker, and the stored artist_ids column of
a printing with no artist IDs is NULL. -/
theorem toJSONString_empty_is_null_counterexample :
    toJSONString (GoValue.strList []) = { string := "", valid := false } ∧
    (mkUpsertPrintingParams
        { (default : Card) with ID := "p0", ArtistIDs := [] } "o0").artist_ids =
      { string := "", valid := false } :=
  ⟨rfl, rfl⟩

/-- C2 amended: compound fields serialized with `toJSONStringDirect`
(the NOT NULL columns: color_identity, keywords, legalities, finishes,
games, prices, related_uris) produce an explicit present empty-container
marker when empty — "[]" for arrays, "\x7b\x7d" for maps — and
re-parsing the stored "[]" yields an empty list, not null and not a
parse error; but compound fields serialized with `toJSONString` (the
nullable columns) produce an absent/NULL value when empty, not a
marker. -/
theorem emptyCompound_serialization_amended :
    (∀ v : GoValue, isEmptyCompoundCase v = true →
      (toJSONStringDirect v = "[]" ∨ toJSONStringDirect v = "\x7b\x7d") ∧
        toJSONString v = { string := "", valid := false }) ∧
    parseJSONStringArray (toJSONStringDirect (GoValue.strList [])) = .ok [] := by
  constructor
  · intro v hv
    cases v with
    | goNil => simp [isEmptyCompoundCase] at hv
    | strList l =>
      simp only [isEmptyCompoundCase] at hv
      exact ⟨Or.inl (by simp [toJSONStringDirect, isNilInterface, emptyContainerMarker, hv]),
        by simp [toJSONString, isNilInterface, isEmptyCompoundCase, hv]⟩
    | intList l =>
      simp only [isEmptyCompoundCase] at hv
      exact ⟨Or.inl (by simp [toJSONStringDirect, isNilInterface, emptyContainerMarker, hv]),
        by simp [toJSONString, isNilInterface, isEmptyCompoundCase, hv]⟩
    | strMap m =>
      simp only [isEmptyCompoundCase] at hv
      exact ⟨Or.inr (by simp [toJSONStringDirect, isNilInterface, emptyContainerMarker, hv]),
        by simp [toJSONString, isNilInterface, isEmptyCompoundCase, hv]⟩
    | strPtrMap m =>
      simp only [isEmptyCompoundCase] at hv
      exact ⟨Or.inr (by simp [toJSONStringDirect, isNilInterface, emptyContainerMarker, hv]),
        by simp [toJSONString, isNilInterface, isEmptyCompoundCase, hv]⟩
    | ptrPreview p => simp [isEmptyCompoundCase] at hv
  · rfl

/-- Witness for the amended C2 at the empty string list. -/
theorem emptyCompound_serialization_amended_witness :
    (toJSONStringDirect (GoValue.strList []) = "[]" ∨
      toJSONStringDirect (GoValue.strList []) = "\x7b\x7d") ∧
    toJSONString (GoValue.strList []) = { string := "", valid := false } :=
  emptyCompound_serialization_amended.1 (GoValue.strList []) rfl

/-- C3: the foil column stored for a printing is true iff the printing's
finishes list contains the exact string "foil", and independently the
nonfoil column is true iff it contains the exact string "nonfoil"
(client.go lines 377-378 via `containsFinish`). -/
theorem upsert_foil_nonfoil_iff (p : Card) (oid : String) :
    ((mkUpsertPrintingParams p oid).foil = true ↔ "foil" ∈ p.Finishes) ∧
    ((mkUpsertPrintingParams p oid).nonfoil = true ↔ "nonfoil" ∈ p.Finishes) :=
  ⟨containsFinish_iff _ _, containsFinish_iff _ _⟩

/-- C7: a card whose fetched printing list is rejected by the filter rule
is skipped before any parameter struct is built: the store and the
statement log leave `processCard` exactly as they entered it. -/
theorem rejectedCard_writes_nothing (cardFails printingFails : Card → Bool)
    (st : Store) (log : List Attempt) (card : Card) (printings : List Card)
    (h : shouldIncludeCard printings = false) :
    processCard cardFails printingFails st log card (.ok printings) =
      .ok (st, log) := by
  simp [processCard, h]

/-- Witness for C7: a card whose only printing is an Arena common is
rejected and writes nothing. -/
theorem rejectedCard_writes_nothing_witness :
    shouldIncludeCard [arenaCommonPrinting] = false ∧
    processCard (fun _ => false) (fun _ => false) emptyStore [] (default : Card)
      (.ok [arenaCommonPrinting]) = .ok (emptyStore, []) :=
  ⟨by decide, rejectedCard_writes_nothing _ _ _ _ _ _ (by decide)⟩

/-- C10: when a printing's optional Preview pointer is nil, the preview
column is stored as the present four-character text "null", not as an
absent/NULL value, because the typed nil `*CardPreview` boxed in an
`interface\x7b\x7d` does not satisfy the `v == nil` check inside
`toJSONString` and `json.Marshal` renders it as `null`. -/
theorem nilPreview_stored_as_null_text (p : Card) (oid : String)
    (h : p.Preview = none) :
    (mkUpsertPrintingParams p oid).preview = { string := "null", valid := true } := by
  simp [mkUpsertPrintingParams, toJSONString, isNilInterface, isEmptyCompoundCase,
    jsonMarshal, h]

/-- Witness for C10 at the default printing, whose Preview is nil. -/
theorem nilPreview_stored_as_null_text_witness :
    (mkUpsertPrintingParams (default : Card) "o").preview =
      { string := "null", valid := true } :=
  nilPreview_stored_as_null_text (default : Card) "o" rfl

theorem lookupA_cons {α : Type} (k : String) (kv : String × α)
    (m : List (String × α)) :
    lookupA k (kv :: m) = if kv.1 == k then some kv.2 else lookupA k m := rfl

theorem lookupA_append {α : Type} (k : String) (m m' : List (String × α)) :
    lookupA k (m ++ m') =
      match lookupA k m with
      | some v => some v
      | none => lookupA k m' := by
  induction m with
  | nil => simp [lookupA]
  | cons kv m ih =>
    by_cases h : kv.1 == k <;> simp [lookupA, h, ih]

theorem lookupA_updateA_self {α : Type} (k : String) (v : α)
    (m : List (String × α)) (h : lookupA k m ≠ none) :
    lookupA k (updateA k v m) = some v := by
  induction m with
  | nil => exact absurd rfl h
  | cons kv m ih =>
    by_cases hk : kv.1 == k
    · simp [updateA, lookupA, hk]
    · rw [lookupA_cons] at h
      simp only [hk, if_neg, Bool.false_eq_true, if_false] at h
      simp [updateA, lookupA, hk] at ih ⊢
      exact ih h

theorem lookupA_updateA_ne {α : Type} (k k' : String) (v : α)
    (m : List (String × α)) (h : k' ≠ k) :
    lookupA k' (updateA k v m) = lookupA k' m := by
  induction m with
  | nil => rfl
  | cons kv m ih =>
    by_cases hk : kv.1 == k
    · have hkv : kv.1 = k := eq_of_beq hk
      have hne : (k == k') = false := by
        simpa using fun hc => h hc.symm
      have hne' : (kv.1 == k') = false := by
        rw [hkv]; exact hne
      simp [updateA, lookupA, hk, hne, hne'] at ih ⊢
      exact ih
    · simp [updateA, lookupA, hk] at ih ⊢
      by_cases hk' : kv.1 == k' <;> simp [hk', ih]

theorem mem_addGame (acc : List String) (g x : String) :
    x ∈ addGame acc g ↔ x ∈ acc ∨ x = g := by
  by_cases h : g ∈ acc
  · simp only [addGame, if_pos h]
    constructor
    · exact Or.inl
    · rintro (hx | rfl)
      · exact hx
      · exact h
  · simp [addGame, if_neg h]

theorem nodup_addGame (acc : List String) (g : String) (h : acc.Nodup) :
    (addGame acc g).Nodup := by
  by_cases hg : g ∈ acc
  · simpa [addGame, if_pos hg] using h
  · simp only [addGame, if_neg hg]
    simpa [List.nodup_append] using ⟨h, hg⟩

theorem mem_foldl_addGame (l : List String) :
    ∀ (acc : List String) (x : String),
      x ∈ l.foldl addGame acc ↔ x ∈ acc ∨ x ∈ l := by
  induction l with
  | nil => simp
  | cons g l ih =>
    intro acc x
    rw [List.foldl_cons, ih, mem_addGame]
    constructor
    · rintro ((hx | rfl) | hx)
      · exact Or.inl hx
      · exact Or.inr (List.mem_cons_self _ _)
      · exact Or.inr (List.mem_cons_of_mem _ hx)
    · rintro (hx | hx)
      · exact Or.inl (Or.inl hx)
      · rcases List.mem_cons.mp hx with rfl | hx
        · exact Or.inl (Or.inr rfl)
        · exact Or.inr hx

theorem nodup_foldl_addGame (l : List String) :
    ∀ acc : List String, acc.Nodup → (l.foldl addGame acc).Nodup := by
  induction l with
  | nil => intro acc h; simpa using h
  | cons g l ih =>
    intro acc h
    rw [List.foldl_cons]
    exact ih _ (nodup_addGame acc g h)

theorem mem_mergeGames (a b : List String) (x : String) :
    x ∈ mergeGames a b ↔ x ∈ a ∨ x ∈ b := by
  simp [mergeGames, mem_foldl_addGame]

theorem nodup_mergeGames (a b : List String) : (mergeGames a b).Nodup :=
  nodup_foldl_addGame _ _ List.nodup_nil

/-- groupRows restricts a row list to the rows of one oracle_id, in
order; its head is the row that creates the card entry on the read
path. -/
def groupRows (rows : List DBRow) (oid : String) : List DBRow :=
  rows.filter (fun r => r.oracle_id == oid)

theorem groupRows_append_single (processed : List DBRow) (row : DBRow)
    (oid : String) :
    groupRows (processed ++ [row]) oid =
      groupRows processed oid ++ if row.oracle_id == oid then [row] else [] := by
  by_cases h : row.oracle_id == oid <;>
    simp [groupRows, List.filter_append, h]

/-- InvGames is the loop invariant of the grouping fold of
`loadCardGames`: every tracked oracle_id has a non-empty row group, its
games list is set-equal to the union over the group, and it is either
the verbatim games list of a singleton group's row or duplicate-free. -/
def InvGames (processed : List DBRow) (m : List (String × List String)) : Prop :=
  ∀ oid : String,
    (lookupA oid m = none → groupRows processed oid = []) ∧
    ∀ gs, lookupA oid m = some gs →
      groupRows processed oid ≠ [] ∧
      (∀ g, g ∈ gs ↔ ∃ r ∈ groupRows processed oid, g ∈ r.games) ∧
      ((∃ r0, groupRows processed oid = [r0] ∧ gs = r0.games) ∨ gs.Nodup)

theorem invGames_nil : InvGames [] [] := by
  intro oid
  refine ⟨fun _ => rfl, fun gs hgs => ?_⟩
  simp [lookupA] at hgs

theorem invGames_step (processed : List DBRow)
    (m : List (String × List String)) (row : DBRow)
    (hinv : InvGames processed m) :
    InvGames (processed ++ [row]) (loadCardGamesStep m row) := by
  intro oid
  have hgroup := groupRows_append_single processed row oid
  by_cases hoid : row.oracle_id == oid
  · -- the new row belongs to the group of `oid`
    have hoid' : row.oracle_id = oid := eq_of_beq hoid
    subst hoid'
    cases hk : lookupA row.oracle_id m with
    | none =>
      -- create branch: append a fresh entry with the games verbatim
      have hempty := (hinv row.oracle_id).1 hk
      constructor
      · intro hnone
        rw [loadCardGamesStep, hk, lookupA_append, hk] at hnone
        simp [lookupA] at hnone
      · intro gs hgs
        rw [loadCardGamesStep, hk, lookupA_append, hk] at hgs
        simp [lookupA] at hgs
        subst hgs
        rw [hgroup, hempty]
        refine ⟨by simp, ?_, Or.inl ⟨row, by simp, rfl⟩⟩
        intro g
        simp
    | some existing =>
      -- merge branch: overwrite with the deduplicated union
      obtain ⟨hne, hmem, _⟩ := (hinv row.oracle_id).2 existing hk
      constructor
      · intro hnone
        rw [loadCardGamesStep, hk,
          lookupA_updateA_self _ _ _ (by rw [hk]; exact Option.some_ne_none _)] at hnone
        exact absurd hnone (by simp)
      · intro gs hgs
        rw [loadCardGamesStep, hk,
          lookupA_updateA_self _ _ _ (by rw [hk]; exact Option.some_ne_none _)] at hgs
        have hgs' : gs = mergeGames existing row.games := by
          exact (Option.some.injEq _ _).mp hgs.symm
        subst hgs'
        rw [hgroup]
        simp only [beq_self_eq_true, if_pos]
        refine ⟨by simp [hne], ?_, Or.inr (nodup_mergeGames _ _)⟩
        intro g
        rw [mem_mergeGames, hmem g]
        constructor
        · rintro (⟨r, hr, hgr⟩ | hg)
          · exact ⟨r, List.mem_append_left _ hr, hgr⟩
          · exact ⟨row, List.mem_append_right _ (by simp), hg⟩
        · rintro ⟨r, hr, hgr⟩
          rcases List.mem_append.mp hr with hr | hr
          · exact Or.inl ⟨r, hr, hgr⟩
          · rcases List.mem_singleton.mp hr with rfl
            exact Or.inr hgr
  · -- the new row belongs to a different group; nothing changes for `oid`
    have hoidf : (row.oracle_id == oid) = false := by
      simpa using hoid
    have hgroup' : groupRows (processed ++ [row]) oid = groupRows processed oid := by
      rw [hgroup, hoidf]
      simp
    have hlook : lookupA oid (loadCardGamesStep m row) = lookupA oid m := by
      rw [loadCardGamesStep]
      cases hk : lookupA row.oracle_id m with
      | none =>
        rw [lookupA_append]
        cases hm : lookupA oid m with
        | none => simp [lookupA, hoidf]
        | some v => simp
      | some existing =>
        refine lookupA_updateA_ne _ _ _ _ ?_
        intro hc
        rw [hc] at hoidf
        simp at hoidf
    rw [hgroup', hlook]
    exact hinv oid

theorem invGames_foldl (rows : List DBRow) :
    ∀ (processed : List DBRow) (m : List (String × List String)),
      InvGames processed m →
      InvGames (processed ++ rows) (rows.foldl loadCardGamesStep m) := by
  induction rows with
  | nil => intro processed m h; simpa using h
  | cons row rows ih =>
    intro processed m h
    have := ih (processed ++ [row]) (loadCardGamesStep m row)
      (invGames_step processed m row h)
    simpa using this

theorem invGames_loadCardGames (rows : List DBRow) :
    InvGames rows (loadCardGames rows) := by
  have := invGames_foldl rows [] [] invGames_nil
  simpa [loadCardGames] using this

/-- C4 counterexample: a single stored printing row whose own games
column already contains a duplicate platform name is reproduced verbatim
by the read path, so the reconstructed card's games list contains a
duplicate, contradicting "containing no duplicate platform names". -/
theorem loadCardGames_duplicates_counterexample :
    loadCardGames [{ oracle_id := "o", games := ["arena", "arena"] }] =
      [("o", ["arena", "arena"])] ∧
    ¬ (["arena", "arena"] : List String).Nodup :=
  ⟨rfl, by decide⟩

/-- C4 amended: for every set of stored printing rows sharing one
oracle_id, the reconstructed games field is equal, as a set, to the
union of the games lists of those rows, with element order irrelevant;
it contains no duplicates whenever the oracle_id has at least two rows,
or whenever the first row of the group has a duplicate-free games list —
but a group consisting of a single row is reproduced verbatim,
duplicates included. -/
theorem loadCardGames_union_amended (rows : List DBRow) (oid : String)
    (gs : List String) (h : lookupA oid (loadCardGames rows) = some gs) :
    (∀ g, g ∈ gs ↔ ∃ r ∈ rows, r.oracle_id = oid ∧ g ∈ r.games) ∧
    (2 ≤ (groupRows rows oid).length → gs.Nodup) ∧
    (∀ r0, (groupRows rows oid).head? = some r0 → r0.games.Nodup → gs.Nodup) := by
  obtain ⟨hne, hmem, hshape⟩ := (invGames_loadCardGames rows oid).2 gs h
  refine ⟨?_, ?_, ?_⟩
  · intro g
    rw [hmem g]
    constructor
    · rintro ⟨r, hr, hgr⟩
      have := List.mem_filter.mp hr
      exact ⟨r, this.1, by simpa using this.2, hgr⟩
    · rintro ⟨r, hr, hoid', hgr⟩
      exact ⟨r, List.mem_filter.mpr ⟨hr, by simpa using hoid'⟩, hgr⟩
  · intro hlen
    rcases hshape with ⟨r0, hr0, _⟩ | hnd
    · rw [hr0] at hlen
      exact absurd hlen (by simp)
    · exact hnd
  · intro r0 hhead hnd0
    rcases hshape with ⟨r1, hr1, hgs1⟩ | hnd
    · rw [hr1] at hhead
      have : r1 = r0 := by simpa using hhead
      subst this
      rw [hgs1]
      exact hnd0
    · exact hnd

/-- Two overlapping rows of one oracle_id, used to witness the amended
C4. -/
def c4WitnessRows : List DBRow :=
  [{ oracle_id := "o", games := ["arena"] },
   { oracle_id := "o", games := ["paper", "arena"] }]

/-- Witness for the amended C4: two rows for one oracle_id whose games
overlap reconstruct to the duplicate-free union. -/
theorem loadCardGames_union_amended_witness :
    lookupA "o" (loadCardGames c4WitnessRows) = some ["arena", "paper"] ∧
    ("paper" ∈ (["arena", "paper"] : List String) ↔
      ∃ r ∈ c4WitnessRows, r.oracle_id = "o" ∧ "paper" ∈ r.games) ∧
    (["arena", "paper"] : List String).Nodup := by
  refine ⟨by decide, ?_, ?_⟩
  · exact (loadCardGames_union_amended c4WitnessRows "o" ["arena", "paper"]
      (by decide)).1 "paper"
  · exact (loadCardGames_union_amended c4WitnessRows "o" ["arena", "paper"]
      (by decide)).2.1 (by decide)

theorem lookupA_upsertA_self {α : Type} (k : String) (v : α)
    (m : List (String × α)) : lookupA k (upsertA k v m) = some v := by
  cases hk : lookupA k m with
  | some w =>
    simp only [upsertA, hk]
    exact lookupA_updateA_self _ _ _ (by rw [hk]; simp)
  | none =>
    simp only [upsertA, hk]
    rw [lookupA_append, hk]
    simp [lookupA]

theorem lookupA_upsertA_isSome_mono {α : Type} (k k' : String) (v : α)
    (m : List (String × α)) (h : (lookupA k' m).isSome = true) :
    (lookupA k' (upsertA k v m)).isSome = true := by
  by_cases hkk : k' = k
  · subst hkk
    rw [lookupA_upsertA_self]
    rfl
  · cases hk : lookupA k m with
    | some w =>
      simp only [upsertA, hk]
      rw [lookupA_updateA_ne _ _ _ _ hkk]
      exact h
    | none =>
      simp only [upsertA, hk]
      rw [lookupA_append]
      obtain ⟨w, hw⟩ := Option.isSome_iff_exists.mp h
      rw [hw]
      rfl

/-- printingsOf projects the printings carried by a successful fetch
result; a failed fetch carries none. -/
def printingsOf : Except Unit (List Card) → List Card
  | .ok l => l
  | .error _ => []

/-- attemptsOf projects the statement log of a completed pass; a
panicked pass has issued no observable log. -/
def attemptsOf : Except GoPanic (Store × List Attempt) → List Attempt
  | .ok r => r.2
  | .error _ => []

theorem processPrintings_ok (printingFails : Card → Bool) (ps : List Card) :
    ∀ (st : Store) (log : List Attempt),
      (∀ p ∈ ps, p.OracleID.isSome = true) →
      ∃ st' : Store,
        processPrintings printingFails st log ps =
          .ok (st', log ++ ps.map (fun p => Attempt.printingUpsert p.ID)) ∧
        st'.cards = st.cards ∧
        (∀ k, (lookupA k st.printings).isSome = true →
          (lookupA k st'.printings).isSome = true) ∧
        (∀ p ∈ ps, printingFails p = false →
          (lookupA p.ID st'.printings).isSome = true) := by
  induction ps with
  | nil =>
    intro st log _
    exact ⟨st, by simp [processPrintings], rfl, fun k h => h, by simp⟩
  | cons p ps ih =>
    intro st log h
    obtain ⟨oid, hoid⟩ :=
      Option.isSome_iff_exists.mp (h p (List.mem_cons_self _ _))
    cases hf : printingFails p with
    | true =>
      obtain ⟨st', heq, hcards, hmono, hrows⟩ :=
        ih st (log ++ [Attempt.printingUpsert p.ID])
          (fun q hq => h q (List.mem_cons_of_mem _ hq))
      refine ⟨st', ?_, hcards, hmono, ?_⟩
      · simp only [processPrintings, hoid, hf, if_pos, heq]
        simp
      · intro q hq hqf
        rcases List.mem_cons.mp hq with rfl | hq
        · rw [hf] at hqf
          exact absurd hqf (by simp)
        · exact hrows q hq hqf
    | false =>
      obtain ⟨st', heq, hcards, hmono, hrows⟩ :=
        ih { st with printings := upsertA p.ID (mkUpsertPrintingParams p oid) st.printings }
          (log ++ [Attempt.printingUpsert p.ID])
          (fun q hq => h q (List.mem_cons_of_mem _ hq))
      refine ⟨st', ?_, by rw [hcards], ?_, ?_⟩
      · simp only [processPrintings, hoid, hf, heq]
        simp
      · intro k hk
        exact hmono k (lookupA_upsertA_isSome_mono _ _ _ _ hk)
      · intro q hq hqf
        rcases List.mem_cons.mp hq with rfl | hq
        · exact hmono q.ID (by rw [lookupA_upsertA_self]; rfl)
        · exact hrows q hq hqf

theorem processCard_ok (cardFails printingFails : Card → Bool) (st : Store)
    (log : List Attempt) (c : Card) (pr : Except Unit (List Card))
    (hc : c.OracleID.isSome = true)
    (hp : ∀ p ∈ printingsOf pr, p.OracleID.isSome = true) :
    ∃ r, processCard cardFails printingFails st log c pr = .ok r := by
  cases pr with
  | error e => exact ⟨(st, log), rfl⟩
  | ok ps =>
    cases hsi : shouldIncludeCard ps with
    | false => exact ⟨(st, log), by simp [processCard, hsi]⟩
    | true =>
      obtain ⟨oid, hoid⟩ := Option.isSome_iff_exists.mp hc
      cases hcf : cardFails c with
      | true =>
        exact ⟨(st, log ++ [Attempt.cardUpsert oid]),
          by simp [processCard, hsi, hoid, hcf]⟩
      | false =>
        obtain ⟨st', heq, -, -, -⟩ :=
          processPrintings_ok printingFails ps
            { st with cards := upsertA oid (mkUpsertCardParams c oid) st.cards }
            (log ++ [Attempt.cardUpsert oid])
            (fun p hp' => hp p (by simpa [printingsOf] using hp'))
        exact ⟨(st', (log ++ [Attempt.cardUpsert oid]) ++
            ps.map (fun p => Attempt.printingUpsert p.ID)),
          by simp [processCard, hsi, hoid, hcf, heq]⟩

/-- Card with a missing (nil) oracle_id, which the decoder accepts. -/
def noOracleCard : Card := { (default : Card) with ID := "c-no-oracle" }

/-- Printing on paper at rare rarity, accepted by the filter rule and
carrying an oracle_id. -/
def paperRarePrinting : Card :=
  { (default : Card) with
      ID := "p-paper-rare", OracleID := some "o-paper-rare",
      Games := ["paper"], Rarity := "rare" }

/-- Card carrying an oracle_id, accepted end to end. -/
def goodOracleCard : Card :=
  { (default : Card) with ID := "c-good", OracleID := some "o-good" }

/-- C9: the fetch-and-load pass dereferences the nullable OracleID
pointer of each accepted card and printing with no nil check, so the
pass completes without panicking whenever every processed card and
printing carries a non-nil oracle_id, and there is an input — a card
with an absent oracle_id whose printings pass the filter — on which the
pass panics with a nil-pointer dereference. -/
theorem oracleDeref_panic_spec :
    (∀ (cardFails printingFails : Card → Bool)
        (inputs : List (Card × Except Unit (List Card))),
      ∀ (st : Store) (log : List Attempt),
        (∀ x ∈ inputs, x.1.OracleID.isSome = true ∧
          ∀ p ∈ printingsOf x.2, p.OracleID.isSome = true) →
        (queryAndInsertCards cardFails printingFails st log inputs).isOk = true) ∧
    queryAndInsertCards (fun _ => false) (fun _ => false) emptyStore []
        [(noOracleCard, .ok [paperRarePrinting])] =
      .error GoPanic.nilPointerDereference := by
  constructor
  · intro cf pf inputs
    induction inputs with
    | nil => intro st log _; rfl
    | cons x rest ih =>
      obtain ⟨c, pr⟩ := x
      intro st log h
      obtain ⟨hc, hp⟩ := h (c, pr) (List.mem_cons_self _ _)
      obtain ⟨r, hr⟩ := processCard_ok cf pf st log c pr hc hp
      obtain ⟨st', log'⟩ := r
      simp only [queryAndInsertCards, hr]
      exact ih st' log' (fun y hy => h y (List.mem_cons_of_mem _ hy))
  · rfl

/-- Witness for C9: a pass over one well-formed card with oracle_ids
everywhere completes without a panic. -/
theorem oracleDeref_panic_spec_witness :
    (queryAndInsertCards (fun _ => false) (fun _ => false) emptyStore []
        [(goodOracleCard, .ok [paperRarePrinting])]).isOk = true :=
  oracleDeref_panic_spec.1 (fun _ => false) (fun _ => false)
    [(goodOracleCard, .ok [paperRarePrinting])] emptyStore [] (by decide)

/-- First search result: its card-row upsert fails. -/
def c8FailingCard : Card :=
  { (default : Card) with ID := "cid1", OracleID := some "o1" }

/-- Printing of the first search result; never attempted. -/
def c8Printing1 : Card :=
  { (default : Card) with
      ID := "p1", OracleID := some "o1", Games := ["paper"], Rarity := "rare" }

/-- Second search result; processed normally. -/
def c8SecondCard : Card :=
  { (default : Card) with ID := "cid2", OracleID := some "o2" }

/-- Printing of the second search result. -/
def c8Printing2 : Card :=
  { (default : Card) with
      ID := "p2", OracleID := some "o2", Games := ["paper"], Rarity := "rare" }

/-- Failure model for C8: the card-row upsert of "cid1" violates a
constraint; everything else succeeds. -/
def c8CardFails (c : Card) : Bool := c.ID == "cid1"

/-- Batch for C8: two accepted cards, one printing each. -/
def c8Inputs : List (Card × Except Unit (List Card)) :=
  [(c8FailingCard, .ok [c8Printing1]), (c8SecondCard, .ok [c8Printing2])]

/-- C8 counterexample: a storage failure on the card row of "cid1" makes
the pass `continue` past that card, so its printing row "p1" — a
subsequent row of the batch — is never attempted, contradicting "all
subsequent rows of the batch are still attempted". -/
theorem cardFailure_skips_printings_counterexample :
    attemptsOf (queryAndInsertCards c8CardFails (fun _ => false) emptyStore [] c8Inputs) =
      [Attempt.cardUpsert "o1", Attempt.cardUpsert "o2", Attempt.printingUpsert "p2"] ∧
    (attemptsOf (queryAndInsertCards c8CardFails (fun _ => false) emptyStore []
        c8Inputs)).contains (Attempt.printingUpsert "p1") = false :=
  ⟨rfl, rfl⟩

/-- C8 amended: a storage failure on a printing row is logged and
skipped — every printing row of the card is still attempted in order,
rows already written are not undone, and the rows whose upserts succeed
are present afterwards; a storage failure on a card row skips that
card's printings but leaves the store untouched and continues with the
remaining cards of the batch. -/
theorem perRowFailure_amended :
    (∀ (printingFails : Card → Bool) (ps : List Card)
        (st : Store) (log : List Attempt),
      (∀ p ∈ ps, p.OracleID.isSome = true) →
      ∃ st' : Store,
        processPrintings printingFails st log ps =
          .ok (st', log ++ ps.map (fun p => Attempt.printingUpsert p.ID)) ∧
        st'.cards = st.cards ∧
        (∀ k, (lookupA k st.printings).isSome = true →
          (lookupA k st'.printings).isSome = true) ∧
        (∀ p ∈ ps, printingFails p = false →
          (lookupA p.ID st'.printings).isSome = true)) ∧
    (∀ (cardFails printingFails : Card → Bool) (st : Store)
        (log : List Attempt) (c : Card) (ps : List Card) (oid : String)
        (rest : List (Card × Except Unit (List Card))),
      c.OracleID = some oid → shouldIncludeCard ps = true → cardFails c = true →
      queryAndInsertCards cardFails printingFails st log ((c, .ok ps) :: rest) =
        queryAndInsertCards cardFails printingFails st
          (log ++ [Attempt.cardUpsert oid]) rest) := by
  constructor
  · exact fun pf ps st log h => processPrintings_ok pf ps st log h
  · intro cf pf st log c ps oid rest hoid hsi hcf
    simp [queryAndInsertCards, processCard, hoid, hsi, hcf]

/-- Witness for the amended C8: a failing printing row "p1" is skipped
but both printings are attempted, and the failing card row "cid1" lets
the pass continue with the rest of the batch. -/
theorem perRowFailure_amended_witness :
    attemptsOf (processPrintings (fun p => p.ID == "p1") emptyStore []
        [c8Printing1, c8Printing2]) =
      [Attempt.printingUpsert "p1", Attempt.printingUpsert "p2"] ∧
    queryAndInsertCards c8CardFails (fun _ => false) emptyStore [] c8Inputs =
      queryAndInsertCards c8CardFails (fun _ => false) emptyStore
        [Attempt.cardUpsert "o1"] [(c8SecondCard, .ok [c8Printing2])] := by
  constructor
  · obtain ⟨st', heq, -, -, -⟩ :=
      perRowFailure_amended.1 (fun p => p.ID == "p1") [c8Printing1, c8Printing2]
        emptyStore [] (by decide)
    rw [heq]
    rfl
  · exact perRowFailure_amended.2 c8CardFails (fun _ => false) emptyStore []
      c8FailingCard [c8Printing1] "o1" [(c8SecondCard, .ok [c8Printing2])]
      (by decide) (by decide) (by decide)

/-- JVal models a parsed JSON document as handed to the UnmarshalJSON
methods.  Numbers are modelled over `Int`; the only numeric wire fields
are identifiers, ranks, counts and the mana value, and no claim depends
on a fractional value. -/
inductive JVal where
  | null
  | bool (b : Bool)
  | num (n : Int)
  | str (s : String)
  | arr (a : List JVal)
  | obj (o : List (String × JVal))

/-- getField finds the value of a key in a JSON object; with duplicate
keys `encoding/json` keeps the last occurrence, hence the reverse. -/
def getField (o : List (String × JVal)) (k : String) : Option JVal :=
  (o.reverse.find? (fun kv => kv.1 == k)).map (fun kv => kv.2)

/-- decString models `json.Unmarshal` into a Go `string` field: an
absent key leaves the zero value, a JSON null is a no-op (also leaving
the zero value), a JSON string decodes, anything else is a type
error. -/
def decString : Option JVal → Except String String
  | none => .ok ""
  | some .null => .ok ""
  | some (.str s) => .ok s
  | some _ => .error "cannot unmarshal into string"

/-- decOptString models `json.Unmarshal` into a Go `*string` field:
absent and null leave the nil pointer, a string allocates. -/
def decOptString : Option JVal → Except String (Option String)
  | none => .ok none
  | some .null => .ok none
  | some (.str s) => .ok (some s)
  | some _ => .error "cannot unmarshal into string pointer"

/-- decInt models `json.Unmarshal` into a Go `int` field. -/
def decInt : Option JVal → Except String Int
  | none => .ok 0
  | some .null => .ok 0
  | some (.num n) => .ok n
  | some _ => .error "cannot unmarshal into int"

/-- decOptInt models `json.Unmarshal` into a Go `*int` field. -/
def decOptInt : Option JVal → Except String (Option Int)
  | none => .ok none
  | some .null => .ok none
  | some (.num n) => .ok (some n)
  | some _ => .error "cannot unmarshal into int pointer"

/-- decBool models `json.Unmarshal` into a Go `bool` field. -/
def decBool : Option JVal → Except String Bool
  | none => .ok false
  | some .null => .ok false
  | some (.bool b) => .ok b
  | some _ => .error "cannot unmarshal into bool"

/-- decOptBool models `json.Unmarshal` into a Go `*bool` field. -/
def decOptBool : Option JVal → Except String (Option Bool)
  | none => .ok none
  | some .null => .ok none
  | some (.bool b) => .ok (some b)
  | some _ => .error "cannot unmarshal into bool pointer"

/-- decStringElem decodes one element of a `[]string` target; a null
element is a no-op leaving the zero string. -/
def decStringElem : JVal → Except String String
  | .null => .ok ""
  | .str s => .ok s
  | _ => .error "cannot unmarshal array element into string"

/-- decStringList models `json.Unmarshal` into a Go `[]string` field. -/
def decStringList : Option JVal → Except String (List String)
  | none => .ok []
  | some .null => .ok []
  | some (.arr a) => a.mapM decStringElem
  | some _ => .error "cannot unmarshal into string slice"

/-- decIntElem decodes one element of a `[]int` target. -/
def decIntElem : JVal → Except String Int
  | .null => .ok 0
  | .num n => .ok n
  | _ => .error "cannot unmarshal array element into int"

/-- decIntList models `json.Unmarshal` into a Go `[]int` field. -/
def decIntList : Option JVal → Except String (List Int)
  | none => .ok []
  | some .null => .ok []
  | some (.arr a) => a.mapM decIntElem
  | some _ => .error "cannot unmarshal into int slice"

/-- decStringMapEntry decodes one value of a `map[string]string`
target. -/
def decStringMapEntry (kv : String × JVal) : Except String (String × String) :=
  match kv.2 with
  | .null => .ok (kv.1, "")
  | .str s => .ok (kv.1, s)
  | _ => .error "cannot unmarshal object value into string"

/-- decStringMap models `json.Unmarshal` into a Go `map[string]string`
field. -/
def decStringMap : Option JVal → Except String (List (String × String))
  | none => .ok []
  | some .null => .ok []
  | some (.obj o) => o.mapM decStringMapEntry
  | some _ => .error "cannot unmarshal into string map"

/-- decStrPtrMapEntry decodes one value of a `map[string]*string`
target: a null value is a nil pointer. -/
def decStrPtrMapEntry (kv : String × JVal) :
    Except String (String × Option String) :=
  match kv.2 with
  | .null => .ok (kv.1, none)
  | .str s => .ok (kv.1, some s)
  | _ => .error "cannot unmarshal object value into string pointer"

/-- decStrPtrMap models `json.Unmarshal` into a Go `map[string]*string`
field. -/
def decStrPtrMap : Option JVal → Except String (List (String × Option String))
  | none => .ok []
  | some .null => .ok []
  | some (.obj o) => o.mapM decStrPtrMapEntry
  | some _ => .error "cannot unmarshal into string pointer map"

/-- asObjectOrNull models `json.Unmarshal` of a document into a Go
struct: an object supplies its fields, a JSON null is an accepted no-op
(all fields keep their zero values), anything else is a type error. -/
def asObjectOrNull : JVal → Except String (List (String × JVal))
  | .null => .ok []
  | .obj o => .ok o
  | _ => .error "cannot unmarshal into struct"

/-- decRelatedCard embeds `RelatedCard.UnmarshalJSON` (types.go lines
696-717): the aux struct shadows `uri` as a string, the remaining fields
decode through the stdlib, then the URI string is parsed — a parse
failure fails the element and with it the whole enclosing decode. -/
def decRelatedCard (parse : String → Except String URL) (v : JVal) :
    Except String RelatedCard := do
  let o ← asObjectOrNull v
  let uriStr ← decString (getField o "uri")
  let id ← decString (getField o "id")
  let object ← decString (getField o "object")
  let component ← decString (getField o "component")
  let name ← decString (getField o "name")
  let typeLine ← decString (getField o "type_line")
  let uri ← parse uriStr
  return { ID := id, Object := object, Component := component,
           Name := name, TypeLine := typeLine, URI := uri }

/-- decRelatedCardList models `json.Unmarshal` into `[]RelatedCard`,
invoking the element's custom UnmarshalJSON per element. -/
def decRelatedCardList (parse : String → Except String URL) :
    Option JVal → Except String (List RelatedCard)
  | none => .ok []
  | some .null => .ok []
  | some (.arr a) => a.mapM (decRelatedCard parse)
  | some _ => .error "cannot unmarshal into RelatedCard slice"

/-- decCardFace models the stdlib decode of one `CardFace` (types.go
lines 442-531; CardFace has no custom UnmarshalJSON). -/
def decCardFace (v : JVal) : Except String CardFace := do
  let o ← asObjectOrNull v
  let artist ← decOptString (getField o "artist")
  let artistID ← decOptString (getField o "artist_id")
  let cmc ← decOptInt (getField o "cmc")
  let colorIndicator ← decStringList (getField o "color_indicator")
  let colors ← decStringList (getField o "colors")
  let defense ← decOptString (getField o "defense")
  let flavorText ← decOptString (getField o "flavor_text")
  let illustrationID ← decOptString (getField o "illustration_id")
  let imageURIs ← decStringMap (getField o "image_uris")
  let layout ← decOptString (getField o "layout")
  let loyalty ← decOptString (getField o "loyalty")
  let manaCost ← decString (getField o "mana_cost")
  let name ← decString (getField o "name")
  let object ← decString (getField o "object")
  let oracleID ← decOptString (getField o "oracle_id")
  let oracleText ← decOptString (getField o "oracle_text")
  let power ← decOptString (getField o "power")
  let printedName ← decOptString (getField o "printed_name")
  let printedText ← decOptString (getField o "printed_text")
  let printedTypeLine ← decOptString (getField o "printed_type_line")
  let toughness ← decOptString (getField o "toughness")
  let typeLine ← decOptString (getField o "type_line")
  let watermark ← decOptString (getField o "watermark")
  return { Artist := artist, ArtistID := artistID, CMC := cmc,
           ColorIndicator := colorIndicator, Colors := colors,
           Defense := defense, FlavorText := flavorText,
           IllustrationID := illustrationID, ImageURIs := imageURIs,
           Layout := layout, Loyalty := loyalty, ManaCost := manaCost,
           Name := name, Object := object, OracleID := oracleID,
           OracleText := oracleText, Power := power,
           PrintedName := printedName, PrintedText := printedText,
           PrintedTypeLine := printedTypeLine, Toughness := toughness,
           TypeLine := typeLine, Watermark := watermark }

/-- decCardFaceList models `json.Unmarshal` into `[]CardFace`. -/
def decCardFaceList : Option JVal → Except String (List CardFace)
  | none => .ok []
  | some .null => .ok []
  | some (.arr a) => a.mapM decCardFace
  | some _ => .error "cannot unmarshal into CardFace slice"

/-- decPreviewPtr models `json.Unmarshal` into a `*CardPreview` field:
absent and null leave the nil pointer, otherwise a CardPreview is
allocated and `CardPreview.UnmarshalJSON` (types.go lines 720-742) runs:
the aux struct shadows `source_uri` as an optional string, which is
parsed only when present. -/
def decPreviewPtr (parse : String → Except String URL) :
    Option JVal → Except String (Option CardPreview)
  | none => .ok none
  | some .null => .ok none
  | some v => do
    let o ← asObjectOrNull v
    let sourceURIStr ← decOptString (getField o "source_uri")
    let previewedAt ← decOptString (getField o "previewed_at")
    let source ← decOptString (getField o "source")
    match sourceURIStr with
    | none =>
      return some { PreviewedAt := previewedAt, SourceURI := none, Source := source }
    | some s => do
      let u ← parse s
      return some { PreviewedAt := previewedAt, SourceURI := some u, Source := source }

/-- UriStrings7 carries the seven URI fields of the Card aux struct of
`Card.UnmarshalJSON` (types.go lines 637-646), which shadow the URL
fields as plain strings. -/
structure UriStrings7 where
  printsSearchURI : String
  rulingsURI : String
  scryfallURI : String
  uri : String
  scryfallSetURI : String
  setSearchURI : String
  setURI : String
deriving Inhabited, DecidableEq

/-- cardUnmarshalAux embeds the `json.Unmarshal(data, &aux)` step of
`Card.UnmarshalJSON`: every field of the alias decodes by the stdlib
rules above (the URL fields of the alias stay at their zero value since
the aux strings shadow their json tags), and the seven URI strings are
returned alongside.  The stdlib visits fields in input order while this
embedding visits them in struct order; the two agree on whether a decode
error exists, which is all any theorem here uses. -/
def cardUnmarshalAux (parse : String → Except String URL) (data : JVal) :
    Except String (Card × UriStrings7) := do
  let o ← asObjectOrNull data
  let printsSearchURIStr ← decString (getField o "prints_search_uri")
  let rulingsURIStr ← decString (getField o "rulings_uri")
  let scryfallURIStr ← decString (getField o "scryfall_uri")
  let uriStr ← decString (getField o "uri")
  let scryfallSetURIStr ← decString (getField o "scryfall_set_uri")
  let setSearchURIStr ← decString (getField o "set_search_uri")
  let setURIStr ← decString (getField o "set_uri")
  let arenaID ← decOptInt (getField o "arena_id")
  let id ← decString (getField o "id")
  let lang ← decString (getField o "lang")
  let mtgoID ← decOptInt (getField o "mtgo_id")
  let mtgoFoilID ← decOptInt (getField o "mtgo_foil_id")
  let multiverseIDs ← decIntList (getField o "multiverse_ids")
  let tcgplayerID ← decOptInt (getField o "tcgplayer_id")
  let tcgplayerEtchedID ← decOptInt (getField o "tcgplayer_etched_id")
  let cardmarketID ← decOptInt (getField o "cardmarket_id")
  let object ← decString (getField o "object")
  let layout ← decString (getField o "layout")
  let oracleID ← decOptString (getField o "oracle_id")
  let allParts ← decRelatedCardList parse (getField o "all_parts")
  let cardFaces ← decCardFaceList (getField o "card_faces")
  let cmc ← decInt (getField o "cmc")
  let colorIdentity ← decStringList (getField o "color_identity")
  let colorIndicator ← decStringList (getField o "color_indicator")
  let colors ← decStringList (getField o "colors")
  let defense ← decOptString (getField o "defense")
  let edhrecRank ← decOptInt (getField o "edhrec_rank")
  let gameChanger ← decOptBool (getField o "game_changer")
  let handModifier ← decOptString (getField o "hand_modifier")
  let keywords ← decStringList (getField o "keywords")
  let legalities ← decStringMap (getField o "legalities")
  let lifeModifier ← decOptString (getField o "life_modifier")
  let loyalty ← decOptString (getField o "loyalty")
  let manaCost ← decOptString (getField o "mana_cost")
  let name ← decString (getField o "name")
  let oracleText ← decOptString (getField o "oracle_text")
  let pennyRank ← decOptInt (getField o "penny_rank")
  let power ← decOptString (getField o "power")
  let producedMana ← decStringList (getField o "produced_mana")
  let reserved ← decBool (getField o "reserved")
  let toughness ← decOptString (getField o "toughness")
  let typeLine ← decString (getField o "type_line")
  let artist ← decOptString (getField o "artist")
  let artistIDs ← decStringList (getField o "artist_ids")
  let attractionLights ← decIntList (getField o "attraction_lights")
  let booster ← decBool (getField o "booster")
  let borderColor ← decString (getField o "border_color")
  let cardBackID ← decString (getField o "card_back_id")
  let collectorNumber ← decString (getField o "collector_number")
  let contentWarning ← decOptBool (getField o "content_warning")
  let digital ← decBool (getField o "digital")
  let finishes ← decStringList (getField o "finishes")
  let flavorName ← decOptString (getField o "flavor_name")
  let flavorText ← decOptString (getField o "flavor_text")
  let frameEffects ← decStringList (getField o "frame_effects")
  let frame ← decString (getField o "frame")
  let fullArt ← decBool (getField o "full_art")
  let games ← decStringList (getField o "games")
  let highresImage ← decBool (getField o "highres_image")
  let illustrationID ← decOptString (getField o "illustration_id")
  let imageStatus ← decString (getField o "image_status")
  let imageURIs ← decStringMap (getField o "image_uris")
  let oversized ← decBool (getField o "oversized")
  let prices ← decStrPtrMap (getField o "prices")
  let printedName ← decOptString (getField o "printed_name")
  let printedText ← decOptString (getField o "printed_text")
  let printedTypeLine ← decOptString (getField o "printed_type_line")
  let promo ← decBool (getField o "promo")
  let promoTypes ← decStringList (getField o "promo_types")
  let purchaseURIs ← decStringMap (getField o "purchase_uris")
  let rarity ← decString (getField o "rarity")
  let relatedURIs ← decStringMap (getField o "related_uris")
  let releasedAt ← decString (getField o "released_at")
  let reprint ← decBool (getField o "reprint")
  let setName ← decString (getField o "set_name")
  let setType ← decString (getField o "set_type")
  let setCode ← decString (getField o "set")
  let setID ← decString (getField o "set_id")
  let storySpotlight ← decBool (getField o "story_spotlight")
  let textless ← decBool (getField o "textless")
  let variation ← decBool (getField o "variation")
  let variationOf ← decOptString (getField o "variation_of")
  let securityStamp ← decOptString (getField o "security_stamp")
  let watermark ← decOptString (getField o "watermark")
  let preview ← decPreviewPtr parse (getField o "preview")
  return ({ ArenaID := arenaID, ID := id, Lang := lang, MTGOID := mtgoID,
            MTGOFoilID := mtgoFoilID, MultiverseIDs := multiverseIDs,
            TCGPlayerID := tcgplayerID, TCGPlayerEtchedID := tcgplayerEtchedID,
            CardmarketID := cardmarketID, Object := object, Layout := layout,
            OracleID := oracleID,
            PrintsSearchURI := { raw := "" }, RulingsURI := { raw := "" },
            ScryfallURI := { raw := "" }, URI := { raw := "" },
            AllParts := allParts, CardFaces := cardFaces, CMC := cmc,
            ColorIdentity := colorIdentity, ColorIndicator := colorIndicator,
            Colors := colors, Defense := defense, EDHRecRank := edhrecRank,
            GameChanger := gameChanger, HandModifier := handModifier,
            Keywords := keywords, Legalities := legalities,
            LifeModifier := lifeModifier, Loyalty := loyalty,
            ManaCost := manaCost, Name := name, OracleText := oracleText,
            PennyRank := pennyRank, Power := power,
            ProducedMana := producedMana, Reserved := reserved,
            Toughness := toughness, TypeLine := typeLine, Artist := artist,
            ArtistIDs := artistIDs, AttractionLights := attractionLights,
            Booster := booster, BorderColor := borderColor,
            CardBackID := cardBackID, CollectorNumber := collectorNumber,
            ContentWarning := contentWarning, Digital := digital,
            Finishes := finishes, FlavorName := flavorName,
            FlavorText := flavorText, FrameEffects := frameEffects,
            Frame := frame, FullArt := fullArt, Games := games,
            HighresImage := highresImage, IllustrationID := illustrationID,
            ImageStatus := imageStatus, ImageURIs := imageURIs,
            Oversized := oversized, Prices := prices,
            PrintedName := printedName, PrintedText := printedText,
            PrintedTypeLine := printedTypeLine, Promo := promo,
            PromoTypes := promoTypes, PurchaseURIs := purchaseURIs,
            Rarity := rarity, RelatedURIs := relatedURIs,
            ReleasedAt := releasedAt, Reprint := reprint,
            ScryfallSetURI := { raw := "" }, SetName := setName,
            SetSearchURI := { raw := "" }, SetType := setType,
            SetURI := { raw := "" }, Set := setCode, SetID := setID,
            StorySpotlight := storySpotlight, Textless := textless,
            Variation := variation, VariationOf := variationOf,
            SecurityStamp := securityStamp, Watermark := watermark,
            Preview := preview },
          { printsSearchURI := printsSearchURIStr,
            rulingsURI := rulingsURIStr, scryfallURI := scryfallURIStr,
            uri := uriStr, scryfallSetURI := scryfallSetURIStr,
            setSearchURI := setSearchURIStr, setURI := setURIStr })

/-- cardUnmarshalJSON embeds `Card.UnmarshalJSON` (types.go lines
635-693): unmarshal into the aux struct, then parse the seven URI
strings in source order, each failure returning immediately, and on
success install the parsed URLs into the card. -/
def cardUnmarshalJSON (parse : String → Except String URL) (data : JVal) :
    Except String Card :=
  match cardUnmarshalAux parse data with
  | .error e => .error e
  | .ok (c, strs) =>
    match parse strs.printsSearchURI with
    | .error e => .error e
    | .ok u1 =>
      match parse strs.rulingsURI with
      | .error e => .error e
      | .ok u2 =>
        match parse strs.scryfallURI with
        | .error e => .error e
        | .ok u3 =>
          match parse strs.uri with
          | .error e => .error e
          | .ok u4 =>
            match parse strs.scryfallSetURI with
            | .error e => .error e
            | .ok u5 =>
              match parse strs.setSearchURI with
              | .error e => .error e
              | .ok u6 =>
                match parse strs.setURI with
                | .error e => .error e
                | .ok u7 =>
                  .ok { c with
                        PrintsSearchURI := u1, RulingsURI := u2,
                        ScryfallURI := u3, URI := u4,
                        ScryfallSetURI := u5, SetSearchURI := u6,
                        SetURI := u7 }

/-- Set mirrors the Go struct `Set` of types.go; the `SetType` string
alias is modelled as a plain string. -/
structure Set where
  Object : String
  ID : String
  Code : String
  MTGOCode : Option String
  ArenaCode : Option String
  TCGPlayerID : Option Int
  Name : String
  SetType : String
  ReleasedAt : Option String
  BlockCode : Option String
  Block : Option String
  ParentSetCode : Option String
  CardCount : Int
  PrintedSize : Option Int
  Digital : Bool
  FoilOnly : Bool
  NonfoilOnly : Bool
  ScryfallURI : URL
  URI : URL
  IconSVGURI : URL
  SearchURI : URL
deriving Inhabited, DecidableEq

/-- UriStrings4 carries the four URI fields of the Set aux struct of
`Set.UnmarshalJSON` (types.go lines 595-600). -/
structure UriStrings4 where
  scryfallURI : String
  uri : String
  iconSVGURI : String
  searchURI : String
deriving Inhabited, DecidableEq

/-- setUnmarshalAux embeds the `json.Unmarshal(data, &aux)` step of
`Set.UnmarshalJSON`; Set has no nested custom unmarshalers, so no parse
function is involved at this stage. -/
def setUnmarshalAux (data : JVal) : Except String (Set × UriStrings4) := do
  let o ← asObjectOrNull data
  let scryfallURIStr ← decString (getField o "scryfall_uri")
  let uriStr ← decString (getField o "uri")
  let iconSVGURIStr ← decString (getField o "icon_svg_uri")
  let searchURIStr ← decString (getField o "search_uri")
  let object ← decString (getField o "object")
  let id ← decString (getField o "id")
  let code ← decString (getField o "code")
  let mtgoCode ← decOptString (getField o "mtgo_code")
  let arenaCode ← decOptString (getField o "arena_code")
  let tcgplayerID ← decOptInt (getField o "tcgplayer_id")
  let name ← decString (getField o "name")
  let setType ← decString (getField o "set_type")
  let releasedAt ← decOptString (getField o "released_at")
  let blockCode ← decOptString (getField o "block_code")
  let block ← decOptString (getField o "block")
  let parentSetCode ← decOptString (getField o "parent_set_code")
  let cardCount ← decInt (getField o "card_count")
  let printedSize ← decOptInt (getField o "printed_size")
  let digital ← decBool (getField o "digital")
  let foilOnly ← decBool (getField o "foil_only")
  let nonfoilOnly ← decBool (getField o "nonfoil_only")
  return ({ Object := object, ID := id, Code := code, MTGOCode := mtgoCode,
            ArenaCode := arenaCode, TCGPlayerID := tcgplayerID, Name := name,
            SetType := setType, ReleasedAt := releasedAt,
            BlockCode := blockCode, Block := block,
            ParentSetCode := parentSetCode, CardCount := cardCount,
            PrintedSize := printedSize, Digital := digital,
            FoilOnly := foilOnly, NonfoilOnly := nonfoilOnly,
            ScryfallURI := { raw := "" }, URI := { raw := "" },
            IconSVGURI := { raw := "" }, SearchURI := { raw := "" } },
          { scryfallURI := scryfallURIStr, uri := uriStr,
            iconSVGURI := iconSVGURIStr, searchURI := searchURIStr })

/-- setUnmarshalJSON embeds `Set.UnmarshalJSON` (types.go lines
593-632): unmarshal into the aux struct, then parse the four URI strings
in source order, each failure returning immediately. -/
def setUnmarshalJSON (parse : String → Except String URL) (data : JVal) :
    Except String Set :=
  match setUnmarshalAux data with
  | .error e => .error e
  | .ok (s, strs) =>
    match parse strs.scryfallURI with
    | .error e => .error e
    | .ok u1 =>
      match parse strs.uri with
      | .error e => .error e
      | .ok u2 =>
        match parse strs.iconSVGURI with
        | .error e => .error e
        | .ok u3 =>
          match parse strs.searchURI with
          | .error e => .error e
          | .ok u4 =>
            .ok { s with
                  ScryfallURI := u1, URI := u2, IconSVGURI := u3,
                  SearchURI := u4 }

/-- urlParseModel is a concrete stand-in for `url.Parse`, used only to
instantiate witnesses and counterexamples.  Modelled from the Go
standard library: `url.Parse` rejects a URL containing an ASCII control
character (and further malformed inputs such as invalid percent-escapes,
which no theorem here relies on being accepted) and accepts the inputs
exercised in this development otherwise; in particular it accepts the
empty string. -/
def urlParseModel (s : String) : Except String URL :=
  if s.toList.any (fun c => c.toNat < 32) then
    .error "net/url: invalid control character in URL"
  else
    .ok { raw := s }

theorem cardUnmarshalJSON_of_parses (parse : String → Except String URL)
    (data : JVal) (c : Card) (strs : UriStrings7)
    (haux : cardUnmarshalAux parse data = .ok (c, strs))
    (u1 u2 u3 u4 u5 u6 u7 : URL)
    (h1 : parse strs.printsSearchURI = .ok u1)
    (h2 : parse strs.rulingsURI = .ok u2)
    (h3 : parse strs.scryfallURI = .ok u3)
    (h4 : parse strs.uri = .ok u4)
    (h5 : parse strs.scryfallSetURI = .ok u5)
    (h6 : parse strs.setSearchURI = .ok u6)
    (h7 : parse strs.setURI = .ok u7) :
    cardUnmarshalJSON parse data =
      .ok { c with
            PrintsSearchURI := u1, RulingsURI := u2, ScryfallURI := u3,
            URI := u4, ScryfallSetURI := u5, SetSearchURI := u6,
            SetURI := u7 } := by
  simp only [cardUnmarshalJSON, haux, h1, h2, h3, h4, h5, h6, h7]

/-- C5 counterexample: decoding the empty JSON object — in which the
required fields id, name and oracle_id are all absent — succeeds instead
of failing, yielding a card with a zero id, a zero name and a nil
oracle_id. -/
theorem decode_missing_required_ok_counterexample :
    (cardUnmarshalJSON urlParseModel (JVal.obj [])).map
        (fun c => (c.ID, c.Name, c.OracleID)) =
      .ok ("", "", none) := rfl

theorem exceptIsOk_bind {ε α β : Type} (x : Except ε α) (f : α → Except ε β) :
    (x >>= f).isOk = true ↔ ∃ a, x = .ok a ∧ (f a).isOk = true := by
  cases x with
  | error e => simp [Bind.bind, Except.bind, Except.isOk, Except.toBool]
  | ok a => simp [Bind.bind, Except.bind]

theorem exceptIsOk_pure {ε α : Type} (a : α) :
    (pure a : Except ε α).isOk = true := rfl

/-- CardFieldsOk holds of an input object when every field of the Card
alias struct decodes: a present field must be structurally well-typed,
while an absent field (its `getField` is `none`) decodes to its zero
value unconditionally.  The fields are listed in the order the
embedding visits them. -/
def CardFieldsOk (parse : String → Except String URL)
    (o : List (String × JVal)) : Prop :=
  (∃ v, decString (getField o "prints_search_uri") = .ok v) ∧
  (∃ v, decString (getField o "rulings_uri") = .ok v) ∧
  (∃ v, decString (getField o "scryfall_uri") = .ok v) ∧
  (∃ v, decString (getField o "uri") = .ok v) ∧
  (∃ v, decString (getField o "scryfall_set_uri") = .ok v) ∧
  (∃ v, decString (getField o "set_search_uri") = .ok v) ∧
  (∃ v, decString (getField o "set_uri") = .ok v) ∧
  (∃ v, decOptInt (getField o "arena_id") = .ok v) ∧
  (∃ v, decString (getField o "id") = .ok v) ∧
  (∃ v, decString (getField o "lang") = .ok v) ∧
  (∃ v, decOptInt (getField o "mtgo_id") = .ok v) ∧
  (∃ v, decOptInt (getField o "mtgo_foil_id") = .ok v) ∧
  (∃ v, decIntList (getField o "multiverse_ids") = .ok v) ∧
  (∃ v, decOptInt (getField o "tcgplayer_id") = .ok v) ∧
  (∃ v, decOptInt (getField o "tcgplayer_etched_id") = .ok v) ∧
  (∃ v, decOptInt (getField o "cardmarket_id") = .ok v) ∧
  (∃ v, decString (getField o "object") = .ok v) ∧
  (∃ v, decString (getField o "layout") = .ok v) ∧
  (∃ v, decOptString (getField o "oracle_id") = .ok v) ∧
  (∃ v, decRelatedCardList parse (getField o "all_parts") = .ok v) ∧
  (∃ v, decCardFaceList (getField o "card_faces") = .ok v) ∧
  (∃ v, decInt (getField o "cmc") = .ok v) ∧
  (∃ v, decStringList (getField o "color_identity") = .ok v) ∧
  (∃ v, decStringList (getField o "color_indicator") = .ok v) ∧
  (∃ v, decStringList (getField o "colors") = .ok v) ∧
  (∃ v, decOptString (getField o "defense") = .ok v) ∧
  (∃ v, decOptInt (getField o "edhrec_rank") = .ok v) ∧
  (∃ v, decOptBool (getField o "game_changer") = .ok v) ∧
  (∃ v, decOptString (getField o "hand_modifier") = .ok v) ∧
  (∃ v, decStringList (getField o "keywords") = .ok v) ∧
  (∃ v, decStringMap (getField o "legalities") = .ok v) ∧
  (∃ v, decOptString (getField o "life_modifier") = .ok v) ∧
  (∃ v, decOptString (getField o "loyalty") = .ok v) ∧
  (∃ v, decOptString (getField o "mana_cost") = .ok v) ∧
  (∃ v, decString (getField o "name") = .ok v) ∧
  (∃ v, decOptString (getField o "oracle_text") = .ok v) ∧
  (∃ v, decOptInt (getField o "penny_rank") = .ok v) ∧
  (∃ v, decOptString (getField o "power") = .ok v) ∧
  (∃ v, decStringList (getField o "produced_mana") = .ok v) ∧
  (∃ v, decBool (getField o "reserved") = .ok v) ∧
  (∃ v, decOptString (getField o "toughness") = .ok v) ∧
  (∃ v, decString (getField o "type_line") = .ok v) ∧
  (∃ v, decOptString (getField o "artist") = .ok v) ∧
  (∃ v, decStringList (getField o "artist_ids") = .ok v) ∧
  (∃ v, decIntList (getField o "attraction_lights") = .ok v) ∧
  (∃ v, decBool (getField o "booster") = .ok v) ∧
  (∃ v, decString (getField o "border_color") = .ok v) ∧
  (∃ v, decString (getField o "card_back_id") = .ok v) ∧
  (∃ v, decString (getField o "collector_number") = .ok v) ∧
  (∃ v, decOptBool (getField o "content_warning") = .ok v) ∧
  (∃ v, decBool (getField o "digital") = .ok v) ∧
  (∃ v, decStringList (getField o "finishes") = .ok v) ∧
  (∃ v, decOptString (getField o "flavor_name") = .ok v) ∧
  (∃ v, decOptString (getField o "flavor_text") = .ok v) ∧
  (∃ v, decStringList (getField o "frame_effects") = .ok v) ∧
  (∃ v, decString (getField o "frame") = .ok v) ∧
  (∃ v, decBool (getField o "full_art") = .ok v) ∧
  (∃ v, decStringList (getField o "games") = .ok v) ∧
  (∃ v, decBool (getField o "highres_image") = .ok v) ∧
  (∃ v, decOptString (getField o "illustration_id") = .ok v) ∧
  (∃ v, decString (getField o "image_status") = .ok v) ∧
  (∃ v, decStringMap (getField o "image_uris") = .ok v) ∧
  (∃ v, decBool (getField o "oversized") = .ok v) ∧
  (∃ v, decStrPtrMap (getField o "prices") = .ok v) ∧
  (∃ v, decOptString (getField o "printed_name") = .ok v) ∧
  (∃ v, decOptString (getField o "printed_text") = .ok v) ∧
  (∃ v, decOptString (getField o "printed_type_line") = .ok v) ∧
  (∃ v, decBool (getField o "promo") = .ok v) ∧
  (∃ v, decStringList (getField o "promo_types") = .ok v) ∧
  (∃ v, decStringMap (getField o "purchase_uris") = .ok v) ∧
  (∃ v, decString (getField o "rarity") = .ok v) ∧
  (∃ v, decStringMap (getField o "related_uris") = .ok v) ∧
  (∃ v, decString (getField o "released_at") = .ok v) ∧
  (∃ v, decBool (getField o "reprint") = .ok v) ∧
  (∃ v, decString (getField o "set_name") = .ok v) ∧
  (∃ v, decString (getField o "set_type") = .ok v) ∧
  (∃ v, decString (getField o "set") = .ok v) ∧
  (∃ v, decString (getField o "set_id") = .ok v) ∧
  (∃ v, decBool (getField o "story_spotlight") = .ok v) ∧
  (∃ v, decBool (getField o "textless") = .ok v) ∧
  (∃ v, decBool (getField o "variation") = .ok v) ∧
  (∃ v, decOptString (getField o "variation_of") = .ok v) ∧
  (∃ v, decOptString (getField o "security_stamp") = .ok v) ∧
  (∃ v, decOptString (getField o "watermark") = .ok v) ∧
  (∃ v, decPreviewPtr parse (getField o "preview") = .ok v)

set_option maxHeartbeats 1000000 in
set_option maxRecDepth 40000 in
theorem cardUnmarshalAux_isOk_iff (parse : String → Except String URL)
    (data : JVal) :
    (cardUnmarshalAux parse data).isOk = true ↔
      ∃ o, asObjectOrNull data = .ok o ∧ CardFieldsOk parse o := by
  unfold CardFieldsOk
  simp only [cardUnmarshalAux, exceptIsOk_bind, exceptIsOk_pure, and_true,
    exists_and_right]

theorem cardUnmarshalJSON_isOk_iff (parse : String → Except String URL)
    (data : JVal) :
    (cardUnmarshalJSON parse data).isOk = true ↔
      ∃ c strs, cardUnmarshalAux parse data = .ok (c, strs) ∧
        (parse strs.printsSearchURI).isOk = true ∧
        (parse strs.rulingsURI).isOk = true ∧
        (parse strs.scryfallURI).isOk = true ∧
        (parse strs.uri).isOk = true ∧
        (parse strs.scryfallSetURI).isOk = true ∧
        (parse strs.setSearchURI).isOk = true ∧
        (parse strs.setURI).isOk = true := by
  rcases haux : cardUnmarshalAux parse data with e | ⟨c0, strs⟩
  · simp [cardUnmarshalJSON, haux, Except.isOk, Except.toBool]
  rcases h1 : parse strs.printsSearchURI with e1 | u1
  · simp [cardUnmarshalJSON, haux, h1, Except.isOk, Except.toBool, and_assoc]
  rcases h2 : parse strs.rulingsURI with e2 | u2
  · simp [cardUnmarshalJSON, haux, h1, h2, Except.isOk, Except.toBool, and_assoc]
  rcases h3 : parse strs.scryfallURI with e3 | u3
  · simp [cardUnmarshalJSON, haux, h1, h2, h3, Except.isOk, Except.toBool, and_assoc]
  rcases h4 : parse strs.uri with e4 | u4
  · simp [cardUnmarshalJSON, haux, h1, h2, h3, h4, Except.isOk, Except.toBool, and_assoc]
  rcases h5 : parse strs.scryfallSetURI with e5 | u5
  · simp [cardUnmarshalJSON, haux, h1, h2, h3, h4, h5, Except.isOk, Except.toBool, and_assoc]
  rcases h6 : parse strs.setSearchURI with e6 | u6
  · simp [cardUnmarshalJSON, haux, h1, h2, h3, h4, h5, h6, Except.isOk, Except.toBool, and_assoc]
  rcases h7 : parse strs.setURI with e7 | u7
  · simp [cardUnmarshalJSON, haux, h1, h2, h3, h4, h5, h6, h7, Except.isOk, Except.toBool, and_assoc]
  simp [cardUnmarshalJSON, haux, h1, h2, h3, h4, h5, h6, h7, Except.isOk, Except.toBool, and_assoc]

/-- C5 amended: the decoder performs no required-field presence
validation.  For every JSON input, the aux unmarshal succeeds exactly
when every field of the alias decodes — a present field must be
structurally well-typed, while every absent field (id, name and
oracle_id included) decodes unconditionally to its zero value — and the
whole decode succeeds exactly when additionally the seven URI strings
parse; so decoding fails only when a present field is structurally
malformed or a URI-bearing field fails URI parsing, never on account of
an absent field.  In particular the empty object decodes to a card with
empty id and name and a nil oracle_id, while a structurally malformed
present id (a number) fails the decode. -/
theorem decode_absence_amended :
    (∀ (parse : String → Except String URL) (data : JVal),
      (cardUnmarshalAux parse data).isOk = true ↔
        ∃ o, asObjectOrNull data = .ok o ∧ CardFieldsOk parse o) ∧
    (∀ (parse : String → Except String URL) (data : JVal),
      (cardUnmarshalJSON parse data).isOk = true ↔
        ∃ c strs, cardUnmarshalAux parse data = .ok (c, strs) ∧
          (parse strs.printsSearchURI).isOk = true ∧
          (parse strs.rulingsURI).isOk = true ∧
          (parse strs.scryfallURI).isOk = true ∧
          (parse strs.uri).isOk = true ∧
          (parse strs.scryfallSetURI).isOk = true ∧
          (parse strs.setSearchURI).isOk = true ∧
          (parse strs.setURI).isOk = true) ∧
    (∀ parse : String → Except String URL,
      decString none = .ok "" ∧ decOptString none = .ok none ∧
      decInt none = .ok 0 ∧ decOptInt none = .ok none ∧
      decBool none = .ok false ∧ decOptBool none = .ok none ∧
      decStringList none = .ok [] ∧ decIntList none = .ok [] ∧
      decStringMap none = .ok [] ∧ decStrPtrMap none = .ok [] ∧
      decRelatedCardList parse none = .ok [] ∧
      decCardFaceList none = .ok [] ∧
      decPreviewPtr parse none = .ok none) ∧
    (∀ (parse : String → Except String URL) (u : URL), parse "" = .ok u →
      ∃ c : Card, cardUnmarshalJSON parse (JVal.obj []) = .ok c ∧
        c.ID = "" ∧ c.Name = "" ∧ c.OracleID = none) ∧
    (∀ parse : String → Except String URL,
      (cardUnmarshalJSON parse (JVal.obj [("id", JVal.num 5)])).isOk = false) := by
  refine ⟨cardUnmarshalAux_isOk_iff, cardUnmarshalJSON_isOk_iff, ?_, ?_, ?_⟩
  · intro parse
    exact ⟨rfl, rfl, rfl, rfl, rfl, rfl, rfl, rfl, rfl, rfl, rfl, rfl, rfl⟩
  · intro parse u hu
    have haux : cardUnmarshalAux parse (JVal.obj []) =
        .ok ((default : Card), (default : UriStrings7)) := rfl
    exact ⟨_, cardUnmarshalJSON_of_parses parse (JVal.obj []) _ _ haux
      u u u u u u u hu hu hu hu hu hu hu, rfl, rfl, rfl⟩
  · intro parse
    rfl

/-- Witness for the amended C5 at the modelled URL parser: the empty
object satisfies every field condition and decodes to zero values, and
the numeric-id object fails. -/
theorem decode_absence_amended_witness :
    (∃ o, asObjectOrNull (JVal.obj []) = .ok o ∧ CardFieldsOk urlParseModel o) ∧
    (∃ c : Card, cardUnmarshalJSON urlParseModel (JVal.obj []) = .ok c ∧
      c.ID = "" ∧ c.Name = "" ∧ c.OracleID = none) ∧
    (cardUnmarshalJSON urlParseModel (JVal.obj [("id", JVal.num 5)])).isOk = false :=
  ⟨(decode_absence_amended.1 urlParseModel (JVal.obj [])).mp rfl,
   decode_absence_amended.2.2.2.1 urlParseModel { raw := "" } rfl,
   decode_absence_amended.2.2.2.2 urlParseModel⟩

/-- C6: whenever the Card (or Set) decode succeeds, the URI parser
succeeded on every URI-bearing aux string, so a parse failure on any
URI-bearing field makes the whole decode return an error — and the
`Except` result then carries no decoded record at all. -/
theorem uriParse_failure_fails_decode :
    (∀ (parse : String → Except String URL) (data : JVal) (c : Card),
      cardUnmarshalJSON parse data = .ok c →
      ∃ c0 strs, cardUnmarshalAux parse data = .ok (c0, strs) ∧
        (parse strs.printsSearchURI).isOk = true ∧
        (parse strs.rulingsURI).isOk = true ∧
        (parse strs.scryfallURI).isOk = true ∧
        (parse strs.uri).isOk = true ∧
        (parse strs.scryfallSetURI).isOk = true ∧
        (parse strs.setSearchURI).isOk = true ∧
        (parse strs.setURI).isOk = true) ∧
    (∀ (parse : String → Except String URL) (data : JVal) (s : Set),
      setUnmarshalJSON parse data = .ok s →
      ∃ s0 strs, setUnmarshalAux data = .ok (s0, strs) ∧
        (parse strs.scryfallURI).isOk = true ∧
        (parse strs.uri).isOk = true ∧
        (parse strs.iconSVGURI).isOk = true ∧
        (parse strs.searchURI).isOk = true) := by
  constructor
  · intro parse data c h
    unfold cardUnmarshalJSON at h
    repeat' split at h
    any_goals exact Except.noConfusion h
    rename_i x0 c0 strs haux x1 u1 h1 x2 u2 h2 x3 u3 h3 x4 u4 h4 x5 u5 h5 x6 u6 h6 x7 u7 h7
    exact ⟨c0, strs, haux, by rw [h1]; rfl, by rw [h2]; rfl, by rw [h3]; rfl,
      by rw [h4]; rfl, by rw [h5]; rfl, by rw [h6]; rfl, by rw [h7]; rfl⟩
  · intro parse data s h
    unfold setUnmarshalJSON at h
    repeat' split at h
    any_goals exact Except.noConfusion h
    rename_i x0 s0 strs haux x1 u1 h1 x2 u2 h2 x3 u3 h3 x4 u4 h4
    exact ⟨s0, strs, haux, by rw [h1]; rfl, by rw [h2]; rfl, by rw [h3]; rfl,
      by rw [h4]; rfl⟩

/-- Witness for C6 at a concrete successful Card and Set decode. -/
theorem uriParse_failure_fails_decode_witness :
    (∃ c0 strs, cardUnmarshalAux urlParseModel (JVal.obj []) = .ok (c0, strs) ∧
      (urlParseModel strs.printsSearchURI).isOk = true ∧
      (urlParseModel strs.rulingsURI).isOk = true ∧
      (urlParseModel strs.scryfallURI).isOk = true ∧
      (urlParseModel strs.uri).isOk = true ∧
      (urlParseModel strs.scryfallSetURI).isOk = true ∧
      (urlParseModel strs.setSearchURI).isOk = true ∧
      (urlParseModel strs.setURI).isOk = true) ∧
    (∃ s0 strs, setUnmarshalAux (JVal.obj []) = .ok (s0, strs) ∧
      (urlParseModel strs.scryfallURI).isOk = true ∧
      (urlParseModel strs.uri).isOk = true ∧
      (urlParseModel strs.iconSVGURI).isOk = true ∧
      (urlParseModel strs.searchURI).isOk = true) :=
  ⟨uriParse_failure_fails_decode.1 urlParseModel (JVal.obj []) _ rfl,
   uriParse_failure_fails_decode.2 urlParseModel (JVal.obj []) _ rfl⟩

end Scryfall
